import Mathlib

/-!
Verification development for the bun auto-attach extension
(source: src/extension.ts).

The extension's module-level mutable maps and sets are modelled as
association lists and membership lists; the filesystem-backed
coordination area (lock files and suppression marker files) is modelled
as association lists keyed by the file name's distinguishing component.
Filesystem operations that can throw in the source (readFileSync,
writeFileSync, JSON.parse, unlinkSync) are modelled with explicit
failure flags; the catch-all handlers of the source are translated
faithfully.  Time (Date.now) is an explicit natural-number parameter.
-/

/-- Association-list lookup with decidable key equality; models
JavaScript Map.get (keys kept unique by aset). -/
def alookup {α β : Type} [DecidableEq α] (k : α) : List (α × β) → Option β
  | [] => none
  | (k', v) :: rest => if k' = k then some v else alookup k rest

/-- Association-list insert-or-overwrite; models Map.set and writing a
file that may or may not already exist. -/
def aset {α β : Type} [DecidableEq α] (k : α) (v : β) : List (α × β) → List (α × β)
  | [] => [(k, v)]
  | (k', v') :: rest => if k' = k then (k, v) :: rest else (k', v') :: aset k v rest

/-- Association-list delete; models Map.delete and unlinking a file. -/
def aerase {α β : Type} [DecidableEq α] (k : α) : List (α × β) → List (α × β)
  | [] => []
  | (k', v') :: rest => if k' = k then rest else (k', v') :: aerase k rest

/-- Set add; models JavaScript Set.add (no duplicate inserted). -/
def sadd {α : Type} [DecidableEq α] (x : α) (s : List α) : List α :=
  if x ∈ s then s else s ++ [x]

theorem alookup_aset_self {α β : Type} [DecidableEq α] (k : α) (v : β) :
    ∀ l : List (α × β), alookup k (aset k v l) = some v := by
  intro l
  induction l with
  | nil => simp [aset, alookup]
  | cons h t ih =>
    obtain ⟨k', v'⟩ := h
    by_cases hk : k' = k
    · simp [aset, hk, alookup]
    · simp [aset, hk, alookup, ih]

theorem alookup_aset_ne {α β : Type} [DecidableEq α] (k k' : α) (v : β)
    (hne : k' ≠ k) : ∀ l : List (α × β), alookup k' (aset k v l) = alookup k' l := by
  intro l
  induction l with
  | nil => simp [aset, alookup, Ne.symm hne]
  | cons h t ih =>
    obtain ⟨k₀, v₀⟩ := h
    by_cases hk : k₀ = k
    · subst hk
      simp [aset, alookup, Ne.symm hne]
    · simp [aset, hk, alookup, ih]

/-- Content of a lock file lock-PORT.json as seen by JSON.parse.
A record whose extensionPid field is absent in the JSON is modelled by
extensionPid 0 (both fail the process-liveness test, as in the source
where isProcessAlive(undefined) returns false). -/
structure LockRecord where
  extensionPid : Nat
  time : Nat
deriving DecidableEq, Repr

/-- A lock file that exists on disk: either unparsable content (JSON.parse
throws) or a parsed record.  A missing file is a missing key in the
association list. -/
inductive LockFile where
  | corrupt
  | record (r : LockRecord)
deriving DecidableEq, Repr

/-- Models isProcessAlive: a pid of 0 (JavaScript falsy, covering the
undefined case) is reported dead without consulting the OS; otherwise the
OS oracle alive decides. -/
def isProcessAliveM (alive : Nat → Bool) (pid : Nat) : Bool :=
  if pid = 0 then false else alive pid

/-- Models acquirePortLock.  The lock store is keyed by the string the
port contributes to the file name.  readFails models readFileSync
throwing (existsSync reported true); a corrupt file models JSON.parse
throwing; writeFails models writeFileSync throwing.  Every thrown path
lands in the catch and returns true without touching the store
(fail open), exactly as in the source. -/
def acquirePortLock (alive : Nat → Bool) (selfPid now : Nat)
    (readFails writeFails : Bool) (pk : String)
    (locks : List (String × LockFile)) : Bool × List (String × LockFile) :=
  match alookup pk locks with
  | some f =>
    if readFails then (true, locks)
    else
      match f with
      | LockFile.corrupt => (true, locks)
      | LockFile.record r =>
        if isProcessAliveM alive r.extensionPid ∧ r.extensionPid ≠ selfPid then
          (false, locks)
        else if writeFails then (true, locks)
        else (true, aset pk (LockFile.record ⟨selfPid, now⟩) locks)
  | none =>
    if writeFails then (true, locks)
    else (true, aset pk (LockFile.record ⟨selfPid, now⟩) locks)

/-- Models releasePortLock: remove the lock file only when it parses and
its extensionPid equals this instance's pid; any filesystem failure is
swallowed and leaves the store unchanged. -/
def releasePortLock (selfPid : Nat) (fsFails : Bool) (pk : String)
    (locks : List (String × LockFile)) : List (String × LockFile) :=
  match alookup pk locks with
  | none => locks
  | some f =>
    if fsFails then locks
    else
      match f with
      | LockFile.corrupt => locks
      | LockFile.record r =>
        if r.extensionPid = selfPid then aerase pk locks else locks

/-- Digit-list to number accumulation, as parseInt does over the leading
digit run it accepts. -/
def digitsToNat (ds : List Char) : Nat :=
  ds.foldl (fun n c => n * 10 + (c.toNat - 48)) 0

/-- Models parseInt(s, 10) restricted to the nonnegative inputs this
program produces: skip leading whitespace, then require at least one
decimal digit; none models NaN. -/
def parseIntTen (s : String) : Option Nat :=
  let t := s.data.dropWhile Char.isWhitespace
  let ds := t.takeWhile Char.isDigit
  if ds.isEmpty then none else some (digitsToNat ds)

/-- Substring test on character lists (String.prototype.includes). -/
def hasSubList (pat : List Char) : List Char → Bool
  | [] => pat.isEmpty
  | c :: rest => pat.isPrefixOf (c :: rest) || hasSubList pat rest

/-- Models s.includes(pat). -/
def containsSub (s pat : String) : Bool :=
  hasSubList pat.data s.data

/-- Splits a character list at a separator, JavaScript split semantics
(an empty input yields one empty field). -/
def splitCharList (sep : Char) : List Char → List (List Char)
  | [] => [[]]
  | c :: rest =>
    match splitCharList sep rest with
    | [] => [[]]
    | h :: t => if c = sep then [] :: h :: t else (c :: h) :: t

/-- The literal scanned for by the session-name pattern. -/
def attachLit : List Char := "Attach Bun (".data

/-- Attempts the pattern at the head of the list: the literal, then one
or more characters other than a closing parenthesis, then a closing
parenthesis; yields the captured group. -/
def matchKeyAt (l : List Char) : Option String :=
  if attachLit.isPrefixOf l then
    let rest := l.drop attachLit.length
    let content := rest.takeWhile (fun c => c ≠ ')')
    if content.isEmpty then none
    else if (rest.drop content.length).head? = some ')' then some (String.mk content)
    else none
  else none

/-- Scans every start position, leftmost match first, as the regex
engine does for an unanchored pattern. -/
def extractKeyAux : List Char → Option String
  | [] => none
  | c :: rest =>
    match matchKeyAt (c :: rest) with
    | some k => some k
    | none => extractKeyAux rest

/-- Models session.name.match applied to the attach-name pattern,
returning the captured endpoint key when the name matches. -/
def extractKey (s : String) : Option String :=
  extractKeyAux s.data

/-- Key string for a port as it appears in coordination file names;
none models a NaN port (parseInt failed), which stringifies to NaN. -/
def portKey : Option Nat → String
  | some p => toString p
  | none => "NaN"

/-- The pid:port key used by the in-memory suppressed set and implicitly
by the suppression file name. -/
def suppKey (pid : Nat) (port : Option Nat) : String :=
  toString pid ++ ":" ++ portKey port

/-- Content of a suppression marker file. -/
inductive MarkerFile where
  | corrupt
  | data (pid : Nat) (port : Option Nat) (time : Nat)
deriving DecidableEq, Repr

/-- Suppression state: the instance-local suppressed set and the shared
marker files, keyed by the (pid, port) pair the file name encodes. -/
structure SupState where
  suppressed : List String
  markers : List ((Nat × Option Nat) × MarkerFile)
deriving DecidableEq, Repr

/-- Models markSuppressed: add the key to the in-memory set, then write
the marker file; a write failure is swallowed. -/
def markSuppressedFun (pid : Nat) (port : Option Nat) (now : Nat)
    (writeFails : Bool) (s : SupState) : SupState :=
  let s1 : SupState := { s with suppressed := sadd (suppKey pid port) s.suppressed }
  if writeFails then s1
  else { s1 with markers := aset (pid, port) (MarkerFile.data pid port now) s1.markers }

/-- Models isSuppressed.  The in-memory set is consulted first and
returns true without any liveness check; only the marker-file path
garbage-collects a marker once the pid is dead.  readFails models
readFileSync throwing (falls through to return false); unlinkFails
models unlinkSync throwing (set entry still deleted, file kept). -/
def isSuppressedFun (alive : Nat → Bool) (pid : Nat) (port : Option Nat)
    (readFails unlinkFails : Bool) (s : SupState) : Bool × SupState :=
  let key := suppKey pid port
  if key ∈ s.suppressed then (true, s)
  else
    match alookup (pid, port) s.markers with
    | none => (false, s)
    | some f =>
      if readFails then (false, s)
      else
        match f with
        | MarkerFile.corrupt => (false, s)
        | MarkerFile.data p q _ =>
          if p = pid ∧ q = port then
            if isProcessAliveM alive pid = false then
              (false, { suppressed := s.suppressed.erase key,
                        markers := if unlinkFails then s.markers
                                   else aerase (pid, port) s.markers })
            else (true, { s with suppressed := sadd key s.suppressed })
          else (false, s)

/-- The in-memory coordinator state of one extension instance, plus the
shared coordination area (locks and suppression markers). -/
structure CoordState where
  attachedSessions : List String
  sessionPidMap : List (String × Nat)
  cooldown : List (String × Nat)
  attachedPids : List Nat
  sessionIdByKey : List (String × String)
  inFlight : List String
  locks : List (String × LockFile)
  sup : SupState
deriving DecidableEq, Repr

/-- A probe of host:port resolves on exactly one of these events; the
outer 300 ms timer and the socket timeout both surface as timeout. -/
inductive ProbeEvent where
  | dataEvt (response : String)
  | connError
  | timeout
deriving DecidableEq, Repr

/-- The response test of checkBunDebugger's data handler. -/
def upgradeAck (r : String) : Bool :=
  containsSub r "websocket" || containsSub r "101 Switching Protocols"

/-- Models checkBunDebugger: the promise resolves true only when the
first event is incoming data whose text passes the upgrade test; an
error event, the socket timeout, or the outer timer all resolve
false. -/
def checkBunDebugger (ev : ProbeEvent) : Bool :=
  match ev with
  | ProbeEvent.dataEvt r => upgradeAck r
  | ProbeEvent.connError => false
  | ProbeEvent.timeout => false

/-- Models one launched attach attempt (the async body mapped over the
selected candidates): mark in flight, probe, on probe failure release
the claim and return without asking the host to attach; otherwise ask
the host (raceResult: some true is host success, some false is the 2 s
race timeout, none is a thrown error), record the session on success,
release the claim on failure; the finally clause clears the in-flight
mark.  First component: whether an attach was requested. -/
def attachAttempt (selfPid : Nat) (host : String) (port pid : Nat)
    (probe : ProbeEvent) (raceResult : Option Bool) (relFails : Bool)
    (st : CoordState) : Bool × CoordState :=
  let key := host ++ ":" ++ toString port
  let pk := toString port
  let st1 : CoordState := { st with inFlight := sadd key st.inFlight }
  let fin := fun (s : CoordState) => { s with inFlight := s.inFlight.erase key }
  if checkBunDebugger probe = false then
    (false, fin { st1 with locks := releasePortLock selfPid relFails pk st1.locks })
  else
    match raceResult with
    | some true =>
      (true, fin { st1 with
        attachedSessions := sadd key st1.attachedSessions,
        sessionPidMap := aset key pid st1.sessionPidMap,
        attachedPids := sadd pid st1.attachedPids })
    | some false =>
      (true, fin { st1 with locks := releasePortLock selfPid relFails pk st1.locks })
    | none =>
      (true, fin { st1 with locks := releasePortLock selfPid relFails pk st1.locks })

/-- Models the onDidStartDebugSession handler on the map it touches:
given the session name and host-assigned id, return the new
sessionIdByKey map and, when a duplicate is detected, the id of the
session asked to stop. -/
def startHandlerMap (name sid : String) (m : List (String × String)) :
    List (String × String) × Option String :=
  match extractKey name with
  | none => (m, none)
  | some key =>
    match alookup key m with
    | none => (aset key sid m, none)
    | some existing => if existing ≠ sid then (m, some sid) else (m, none)

/-- The onDidStartDebugSession handler lifted to the whole coordinator
state (it only ever touches sessionIdByKey). -/
def startHandler (name sid : String) (st : CoordState) : CoordState × Option String :=
  let (m, stop) := startHandlerMap name sid st.sessionIdByKey
  ({ st with sessionIdByKey := m }, stop)

/-- Models the onDidTerminateDebugSession handler: on a matching name,
unconditionally drop the key from the attached set, the pid map and the
session-id map, release the port claim, set an 800 ms cooldown on the
key, drop the recorded pid from attachedPids, and then, only when a pid
was recorded and is still alive, mark (pid, port) suppressed. -/
def keyPort (key : String) : Option Nat :=
  match (splitCharList ':' key.data).get? 1 with
  | none => none
  | some cs => parseIntTen (String.mk cs)

def termHandler (alive : Nat → Bool) (selfPid now : Nat)
    (relFails supWriteFails : Bool) (name : String) (st : CoordState) : CoordState :=
  match extractKey name with
  | none => st
  | some key =>
    let port? : Option Nat := keyPort key
    let pid? := alookup key st.sessionPidMap
    let st1 : CoordState := { st with
      attachedSessions := st.attachedSessions.erase key,
      sessionPidMap := aerase key st.sessionPidMap,
      locks := releasePortLock selfPid relFails (portKey port?) st.locks,
      cooldown := aset key (now + 800) st.cooldown,
      sessionIdByKey := aerase key st.sessionIdByKey,
      attachedPids :=
        match pid? with
        | some p => if p ≠ 0 then st.attachedPids.erase p else st.attachedPids
        | none => st.attachedPids }
    match pid? with
    | some p =>
      if p ≠ 0 ∧ isProcessAliveM alive p = true then
        { st1 with sup := markSuppressedFun p port? now supWriteFails st1.sup }
      else st1
    | none => st1

/-- Number of parent-map keys not yet visited; twice this plus one is an
upper bound on the remaining iterations of the ownership walk. -/
def keysLeft (pm : List (Nat × Nat)) (visited : List Nat) : Nat :=
  ((pm.map Prod.fst).filter (fun k => decide (k ∉ visited))).length

/-- The while loop of belongsToCurrentWindow, instrumented to also
return the visited set.  The loop guard requires a truthy current pid
(nonzero), not yet visited, and not the root pid 1; the body returns
true when current is one of this window's terminal pids, otherwise
follows the parent map (a missing parent reads as 0, ending the loop).
The fuel argument is an artifact of the embedding: the source loop is
unbounded, and the stability theorem below shows the result no longer
depends on fuel once it reaches 2 * keysLeft + 1. -/
def walkAux (pm : List (Nat × Nat)) (tpids : List Nat) :
    Nat → Nat → List Nat → Bool × List Nat
  | 0, _, visited => (false, visited)
  | fuel + 1, current, visited =>
    if current = 0 ∨ current ∈ visited ∨ current = 1 then (false, visited)
    else if current ∈ tpids then (true, visited)
    else walkAux pm tpids fuel ((alookup current pm).getD 0) (current :: visited)

/-- Models belongsToCurrentWindow, run with provably sufficient fuel. -/
def belongsToCurrentWindow (pm : List (Nat × Nat)) (tpids : List Nat)
    (pid : Nat) : Bool :=
  (walkAux pm tpids (2 * pm.length + 1) pid []).1

theorem alookup_eq_none_of_not_mem_keys {β : Type} (pm : List (Nat × β)) (k : Nat)
    (h : k ∉ pm.map Prod.fst) : alookup k pm = none := by
  induction pm with
  | nil => rfl
  | cons hd t ih =>
    obtain ⟨k₀, v₀⟩ := hd
    simp only [List.map_cons, List.mem_cons] at h
    push_neg at h
    simp [alookup, Ne.symm h.1, ih h.2]

theorem filter_imp_length_le {α : Type} (p q : α → Bool)
    (h : ∀ a, q a = true → p a = true) :
    ∀ l : List α, (l.filter q).length ≤ (l.filter p).length := by
  intro l
  induction l with
  | nil => simp
  | cons a t ih =>
    by_cases hq : q a = true
    · simp [List.filter_cons, hq, h a hq]
      omega
    · have : q a = false := by revert hq; cases q a <;> simp
      by_cases hp : p a = true
      · simp [List.filter_cons, this, hp]
        omega
      · have hp' : p a = false := by revert hp; cases p a <;> simp
        simp [List.filter_cons, this, hp']
        omega

theorem filter_imp_length_lt {α : Type} (p q : α → Bool)
    (h : ∀ a, q a = true → p a = true)
    (x : α) (hp : p x = true) (hq : q x = false) :
    ∀ l : List α, x ∈ l → (l.filter q).length < (l.filter p).length := by
  intro l
  induction l with
  | nil => simp
  | cons a t ih =>
    intro hmem
    rcases List.mem_cons.mp hmem with heq | hmem'
    · subst heq
      simp [List.filter_cons, hq, hp]
      have := filter_imp_length_le p q h t
      omega
    · have hlt := ih hmem'
      by_cases hqa : q a = true
      · simp [List.filter_cons, hqa, h a hqa]
        omega
      · have hqa' : q a = false := by revert hqa; cases q a <;> simp
        by_cases hpa : p a = true
        · simp [List.filter_cons, hqa', hpa]
          omega
        · have hpa' : p a = false := by revert hpa; cases p a <;> simp
          simp [List.filter_cons, hqa', hpa']
          omega

theorem keysLeft_cons_le (pm : List (Nat × Nat)) (x : Nat) (v : List Nat) :
    keysLeft pm (x :: v) ≤ keysLeft pm v := by
  unfold keysLeft
  apply filter_imp_length_le
  intro a ha
  simp only [decide_eq_true_eq] at *
  intro hmem
  exact ha (List.mem_cons_of_mem x hmem)

theorem keysLeft_cons_lt (pm : List (Nat × Nat)) (x : Nat) (v : List Nat)
    (hk : x ∈ pm.map Prod.fst) (hv : x ∉ v) :
    keysLeft pm (x :: v) < keysLeft pm v := by
  unfold keysLeft
  apply filter_imp_length_lt (x := x)
  · intro a ha
    simp only [decide_eq_true_eq] at *
    intro hmem
    exact ha (List.mem_cons_of_mem x hmem)
  · simpa using hv
  · simp
  · exact hk

theorem walkAux_current_zero (pm : List (Nat × Nat)) (tpids : List Nat) :
    ∀ fuel visited, walkAux pm tpids fuel 0 visited = (false, visited) := by
  intro fuel visited
  cases fuel <;> simp [walkAux]

theorem walkAux_stable (pm : List (Nat × Nat)) (tpids : List Nat) :
    ∀ fuel₁ fuel₂ current visited,
      2 * keysLeft pm visited + 1 ≤ fuel₁ →
      2 * keysLeft pm visited + 1 ≤ fuel₂ →
      walkAux pm tpids fuel₁ current visited = walkAux pm tpids fuel₂ current visited := by
  intro fuel₁
  induction fuel₁ with
  | zero => intro fuel₂ current visited h1 _; omega
  | succ n ih =>
    intro fuel₂ current visited h1 h2
    cases fuel₂ with
    | zero => omega
    | succ m =>
      by_cases hg : current = 0 ∨ current ∈ visited ∨ current = 1
      · simp [walkAux, hg]
      · by_cases ht : current ∈ tpids
        · simp [walkAux, hg, ht]
        · simp only [walkAux, if_neg hg, if_neg ht]
          by_cases hk : current ∈ pm.map Prod.fst
          · have hv : current ∉ visited := by
              intro hc; exact hg (Or.inr (Or.inl hc))
            have hlt := keysLeft_cons_lt pm current visited hk hv
            exact ih m _ (current :: visited) (by omega) (by omega)
          · have hnone := alookup_eq_none_of_not_mem_keys pm current hk
            simp only [hnone, Option.getD_none]
            rw [walkAux_current_zero, walkAux_current_zero]

theorem walkAux_visited_le (pm : List (Nat × Nat)) (tpids : List Nat) :
    ∀ fuel current visited,
      (walkAux pm tpids fuel current visited).2.length ≤
        keysLeft pm visited + visited.length + 1 := by
  intro fuel
  induction fuel with
  | zero => intro current visited; simp [walkAux]; omega
  | succ n ih =>
    intro current visited
    by_cases hg : current = 0 ∨ current ∈ visited ∨ current = 1
    · simp [walkAux, hg]; omega
    · by_cases ht : current ∈ tpids
      · simp [walkAux, hg, ht]; omega
      · simp only [walkAux, if_neg hg, if_neg ht]
        by_cases hk : current ∈ pm.map Prod.fst
        · have hv : current ∉ visited := by
            intro hc; exact hg (Or.inr (Or.inl hc))
          have hlt := keysLeft_cons_lt pm current visited hk hv
          have := ih ((alookup current pm).getD 0) (current :: visited)
          simp only [List.length_cons] at this
          omega
        · have hnone := alookup_eq_none_of_not_mem_keys pm current hk
          simp only [hnone, Option.getD_none]
          rw [walkAux_current_zero]
          simp only [List.length_cons]
          omega

theorem walkAux_visited_nodup (pm : List (Nat × Nat)) (tpids : List Nat) :
    ∀ fuel current visited, visited.Nodup →
      (walkAux pm tpids fuel current visited).2.Nodup := by
  intro fuel
  induction fuel with
  | zero => intro current visited h; simpa [walkAux]
  | succ n ih =>
    intro current visited h
    by_cases hg : current = 0 ∨ current ∈ visited ∨ current = 1
    · simpa [walkAux, hg]
    · by_cases ht : current ∈ tpids
      · simpa [walkAux, hg, ht]
      · simp only [walkAux, if_neg hg, if_neg ht]
        apply ih
        refine List.nodup_cons.mpr ⟨?_, h⟩
        intro hc; exact hg (Or.inr (Or.inl hc))

theorem keysLeft_nil_eq_length (pm : List (Nat × Nat)) :
    keysLeft pm [] = pm.length := by
  unfold keysLeft
  simp

/-- An entry of the processCache map. -/
structure CacheEntry where
  port : Nat
  pid : Nat
  lastSeen : Nat
deriving DecidableEq, Repr

/-- A discovered candidate endpoint (interface BunCandidate). -/
structure BunCandidate where
  host : String
  port : Nat
  pid : Nat
deriving DecidableEq, Repr

/-- The module-level variables driving scan coalescing, together with
the candidate cache. -/
structure ScanGlobals where
  isScanning : Bool
  lastScanTime : Nat
  processCache : List (String × CacheEntry)
deriving DecidableEq, Repr

/-- Parses one ps output line after trim: leading digits, whitespace,
digits; anything else contributes nothing to the parent map. -/
def psLineParse (l : List Char) : Option (Nat × Nat) :=
  let t := ((l.dropWhile Char.isWhitespace).reverse.dropWhile Char.isWhitespace).reverse
  let d1 := t.takeWhile Char.isDigit
  if d1.isEmpty then none
  else
    let r1 := t.drop d1.length
    let ws := r1.takeWhile Char.isWhitespace
    if ws.isEmpty then none
    else
      let d2 := (r1.drop ws.length).takeWhile Char.isDigit
      if d2.isEmpty then none
      else some (digitsToNat d1, digitsToNat d2)

/-- Builds the pid to parent-pid map from the ps output (later lines for
the same pid overwrite earlier ones, as Map.set does). -/
def buildParentMap (s : String) : List (Nat × Nat) :=
  (splitCharList '\n' s.data).foldl
    (fun m l =>
      match psLineParse l with
      | some (p, pp) => aset p pp m
      | none => m) []

/-- Attempts the port pattern at one position: a colon, one or more
digits, one or more whitespace characters, then the literal marker of a
listening socket. -/
def matchPortAt : List Char → Option Nat
  | [] => none
  | c :: rest =>
    if c = ':' then
      let ds := rest.takeWhile Char.isDigit
      if ds.isEmpty then none
      else
        let r2 := rest.drop ds.length
        let ws := r2.takeWhile Char.isWhitespace
        if ws.isEmpty then none
        else if "(LISTEN)".data.isPrefixOf (r2.drop ws.length) then
          some (digitsToNat ds)
        else none
    else none

/-- Unanchored search for the port pattern, leftmost match first. -/
def findPortMatch : List Char → Option Nat
  | [] => none
  | c :: rest =>
    match matchPortAt (c :: rest) with
    | some p => some p
    | none => findPortMatch rest

/-- Anchored pid pattern of an lsof line: the program name, whitespace,
digits. -/
def pidMatchF (l : List Char) : Option Nat :=
  if "bun".data.isPrefixOf l then
    let rest := l.drop 3
    let ws := rest.takeWhile Char.isWhitespace
    if ws.isEmpty then none
    else
      let ds := (rest.drop ws.length).takeWhile Char.isDigit
      if ds.isEmpty then none else some (digitsToNat ds)
  else none

/-- Accumulator of the lsof line loop: candidates found so far, the seen
set, the candidate cache, and the suppression state (isSuppressed may
mutate it). -/
structure ScanAcc where
  found : List BunCandidate
  seen : List String
  cache : List (String × CacheEntry)
  sup : SupState
deriving DecidableEq, Repr

/-- Models the per-line body of the lsof forEach loop. -/
def foldLsofLine (alive : Nat → Bool) (now : Nat)
    (supReadFails supUnlinkFails : Bool)
    (tpids : List Nat) (pm : List (Nat × Nat))
    (acc : ScanAcc) (line : List Char) : ScanAcc :=
  if ¬ ("bun".data.isPrefixOf line ∧ hasSubList "LISTEN".data line) then acc
  else
    match findPortMatch line, pidMatchF line with
    | some port, some pid =>
      if ¬ (port = 9229 ∨ port = 6499) then acc
      else if ¬ belongsToCurrentWindow pm tpids pid then acc
      else
        let unique := toString pid ++ ":" ++ toString port
        if unique ∈ acc.seen then acc
        else
          let seen' := sadd unique acc.seen
          let (supp, sup') :=
            isSuppressedFun alive pid (some port) supReadFails supUnlinkFails acc.sup
          if supp then { acc with seen := seen', sup := sup' }
          else
            { found := acc.found ++ [⟨"127.0.0.1", port, pid⟩],
              seen := seen',
              cache := aset unique ⟨port, pid, now⟩ acc.cache,
              sup := sup' }
    | _, _ => acc

/-- Models scanForBunDebugger.  terminalLookups carries the result of
each terminal's asynchronous pid lookup (none for a failed lookup;
a pid of 0 is filtered as falsy).  lsofOut and psOut are the raw shell
outputs, with none modelling a failed exec (the callback substitutes the
empty string).  Returns the candidates, the updated globals, and the
updated suppression state. -/
def scanForBunDebugger (alive : Nat → Bool) (now : Nat)
    (terminalLookups : List (Option Nat)) (lsofOut psOut : Option String)
    (supReadFails supUnlinkFails : Bool)
    (g : ScanGlobals) (sup : SupState) :
    List BunCandidate × ScanGlobals × SupState :=
  if g.isScanning ∨ now - g.lastScanTime < 200 then
    (((g.processCache.map Prod.snd).filter (fun e => now - e.lastSeen < 1500)).map
      (fun e => ⟨"127.0.0.1", e.port, e.pid⟩), g, sup)
  else
    let g1 : ScanGlobals := { g with isScanning := true, lastScanTime := now }
    let tpids := (terminalLookups.filterMap id).filter (fun p => decide (p ≠ 0))
    if tpids.isEmpty then ([], { g1 with isScanning := false }, sup)
    else
      let pm := buildParentMap (psOut.getD "")
      let lines := splitCharList '\n' (lsofOut.getD "").data
      let acc := lines.foldl
        (foldLsofLine alive now supReadFails supUnlinkFails tpids pm)
        ⟨[], [], g1.processCache, sup⟩
      let cache' := acc.cache.filter (fun e => decide (¬ (now - e.2.lastSeen > 2000)))
      (acc.found, { g1 with isScanning := false, processCache := cache' }, acc.sup)

/-- The concurrency cap of the attachment scheduler. -/
def maxConcurrentAttachments : Nat := 2

/-- State of the scheduler observed through its attempt counter. -/
structure SchedState where
  active : Nat
deriving DecidableEq, Repr

/-- Events of the scheduler timeline.  A cycle event is the synchronous
block of one debounced tick in which the eligible list is sliced to the
remaining capacity and each launched attempt increments the counter (in
the source this block runs without interleaving: the slice, the map, and
the two increments per callback all execute before any await resumes).
A finish event is the finally clause of one attempt decrementing the
counter. -/
inductive SchedEvent where
  | cycle (eligibleCount : Nat)
  | finish
deriving DecidableEq, Repr

/-- One scheduler transition. -/
def schedStep (s : SchedState) (e : SchedEvent) : SchedState :=
  match e with
  | SchedEvent.cycle k =>
    if maxConcurrentAttachments ≤ s.active then s
    else ⟨s.active + min k (maxConcurrentAttachments - s.active)⟩
  | SchedEvent.finish => ⟨s.active - 1⟩

/-- A whole scheduler execution from the initial counter. -/
def runSched (tr : List SchedEvent) : SchedState :=
  tr.foldl schedStep ⟨0⟩

/-- The slice of the eligible list launched by a cycle. -/
def selectForLaunch (active : Nat) (l : List BunCandidate) : List BunCandidate :=
  l.take (maxConcurrentAttachments - active)

/-- The eligible candidates a cycle leaves for a later cycle. -/
def deferredRest (active : Nat) (l : List BunCandidate) : List BunCandidate :=
  l.drop (maxConcurrentAttachments - active)

/-- The in-flight marks a cycle installs for its launched keys. -/
def markInFlightKeys (keys : List String) (s : List String) : List String :=
  keys.foldl (fun acc k => sadd k acc) s

theorem acquirePortLock_self_owned_step (alive : Nat → Bool) (selfPid t0 t : Nat)
    (pk : String) (locks : List (String × LockFile))
    (hown : alookup pk locks = some (LockFile.record ⟨selfPid, t0⟩)) :
    acquirePortLock alive selfPid t false false pk locks =
      (true, aset pk (LockFile.record ⟨selfPid, t⟩) locks) := by
  simp [acquirePortLock, hown]

theorem acquirePortLock_record_eval (alive : Nat → Bool) (selfPid now : Nat)
    (writeFails : Bool) (pk : String) (locks : List (String × LockFile))
    (r : LockRecord) (hlk : alookup pk locks = some (LockFile.record r)) :
    acquirePortLock alive selfPid now false writeFails pk locks =
      if isProcessAliveM alive r.extensionPid ∧ r.extensionPid ≠ selfPid then
        (false, locks)
      else if writeFails then (true, locks)
      else (true, aset pk (LockFile.record ⟨selfPid, now⟩) locks) := by
  simp [acquirePortLock, hlk]

/-- Repeated acquisition of the same port by the same instance at the
given sequence of times, with the backing storage healthy. -/
def iterAcquireN (alive : Nat → Bool) (selfPid : Nat) (times : List Nat)
    (pk : String) (locks : List (String × LockFile)) :
    List Bool × List (String × LockFile) :=
  match times with
  | [] => ([], locks)
  | t :: ts =>
    let r := acquirePortLock alive selfPid t false false pk locks
    let rest := iterAcquireN alive selfPid ts pk r.2
    (r.1 :: rest.1, rest.2)

/-- C9: acquire is idempotent for its owner.  If the existing claim
record was written by this same instance, every repetition of
acquire(port) returns true, the final record still names this instance
with the last acquisition time as its (refreshed) timestamp, and no
other port's lock file is touched. -/
theorem acquire_idempotent_for_owner (alive : Nat → Bool) (selfPid t0 : Nat)
    (pk : String) (locks : List (String × LockFile)) (times : List Nat)
    (hown : alookup pk locks = some (LockFile.record ⟨selfPid, t0⟩)) :
    (∀ b ∈ (iterAcquireN alive selfPid times pk locks).1, b = true) ∧
    alookup pk (iterAcquireN alive selfPid times pk locks).2 =
      some (LockFile.record ⟨selfPid, times.getLastD t0⟩) ∧
    (∀ k, k ≠ pk →
      alookup k (iterAcquireN alive selfPid times pk locks).2 = alookup k locks) := by
  induction times generalizing locks t0 with
  | nil =>
    refine ⟨?_, ?_, fun k _ => rfl⟩
    · intro b hb
      simp [iterAcquireN] at hb
    · simpa [iterAcquireN] using hown
  | cons t ts ih =>
    have hstep := acquirePortLock_self_owned_step alive selfPid t0 t pk locks hown
    have hown' : alookup pk (aset pk (LockFile.record ⟨selfPid, t⟩) locks) =
        some (LockFile.record ⟨selfPid, t⟩) := alookup_aset_self _ _ _
    obtain ⟨h1, h2, h3⟩ := ih t (aset pk (LockFile.record ⟨selfPid, t⟩) locks) hown'
    refine ⟨?_, ?_, ?_⟩
    · intro b hb
      simp only [iterAcquireN, hstep, List.mem_cons] at hb
      rcases hb with hb | hb
      · exact hb
      · exact h1 b hb
    · rw [List.getLastD_cons]
      simpa [iterAcquireN, hstep] using h2
    · intro k hk
      have hk3 := h3 k hk
      simp only [iterAcquireN, hstep]
      rw [hk3, alookup_aset_ne _ _ _ hk]

/-- Witness for C9 at a concrete self-owned record and two repetitions. -/
theorem acquire_idempotent_for_owner_witness :
    (∀ b ∈ (iterAcquireN (fun _ => true) 10 [100, 200] "9229"
        [("9229", LockFile.record ⟨10, 5⟩)]).1, b = true) ∧
    alookup "9229" (iterAcquireN (fun _ => true) 10 [100, 200] "9229"
        [("9229", LockFile.record ⟨10, 5⟩)]).2 = some (LockFile.record ⟨10, 200⟩) := by
  have h := acquire_idempotent_for_owner (fun _ => true) 10 5 "9229"
    [("9229", LockFile.record ⟨10, 5⟩)] [100, 200] (by decide)
  exact ⟨h.1, by simpa using h.2.1⟩

/-- C2 counterexample: with an absent lock file and a failing storage
write, acquire reports success (fail open) yet writes no claim record at
all, so "on success it writes a record stamped with this instance's
identity and a timestamp" fails as stated. -/
theorem acquirePortLock_success_without_write :
    (acquirePortLock (fun _ => true) 10 100 false true "9229" []).1 = true ∧
    alookup "9229" (acquirePortLock (fun _ => true) 10 100 false true "9229" []).2 =
      none := by
  decide

/-- C2 (amended): acquire(port) returns false exactly when the lock file
is readable, parses to a record whose owning process is alive, and that
owner is a different instance; in every other situation (no record, dead
owner, self-owned record, or a failing storage read) it returns true.
The record stamped with this instance's identity and the fresh timestamp
is guaranteed on success only when the storage operations themselves
succeed and any existing file parses; on the fail-open paths success is
returned with the store untouched. -/
theorem acquirePortLock_amended (alive : Nat → Bool) (selfPid now : Nat)
    (readFails writeFails : Bool) (pk : String) (locks : List (String × LockFile)) :
    ((acquirePortLock alive selfPid now readFails writeFails pk locks).1 = false ↔
      (readFails = false ∧ ∃ r, alookup pk locks = some (LockFile.record r) ∧
        isProcessAliveM alive r.extensionPid = true ∧ r.extensionPid ≠ selfPid)) ∧
    (readFails = false → writeFails = false →
      alookup pk locks ≠ some LockFile.corrupt →
      (acquirePortLock alive selfPid now readFails writeFails pk locks).1 = true →
      alookup pk (acquirePortLock alive selfPid now readFails writeFails pk locks).2 =
        some (LockFile.record ⟨selfPid, now⟩)) := by
  rcases hlk : alookup pk locks with _ | f
  · constructor
    · cases writeFails <;> simp [acquirePortLock, hlk]
    · intro _ hwf _ _
      subst hwf
      simp [acquirePortLock, hlk, alookup_aset_self]
  · cases f with
    | corrupt =>
      constructor
      · cases readFails <;> simp [acquirePortLock, hlk]
      · intro _ _ hc _
        exact absurd rfl hc
    | record r =>
      cases readFails with
      | false =>
        have heval := acquirePortLock_record_eval alive selfPid now writeFails pk locks r hlk
        by_cases hlive : isProcessAliveM alive r.extensionPid = true ∧ r.extensionPid ≠ selfPid
        · rw [heval, if_pos hlive]
          refine ⟨⟨fun _ => ⟨rfl, ⟨r, rfl, hlive.1, hlive.2⟩⟩, fun _ => rfl⟩, ?_⟩
          intro _ _ _ hres
          simp at hres
        · rw [heval, if_neg hlive]
          have hres1 : (if writeFails then (true, locks)
              else (true, aset pk (LockFile.record ⟨selfPid, now⟩) locks)).1 = true := by
            cases writeFails <;> simp
          constructor
          · rw [hres1]
            simp only [Bool.true_eq_false, false_iff]
            rintro ⟨-, r', hsome, hl1, hl2⟩
            have hrr : r = r' := by simpa using hsome
            subst hrr
            exact hlive ⟨hl1, hl2⟩
          · intro _ hwf _ _
            subst hwf
            simp [alookup_aset_self]
      | true =>
        constructor
        · simp [acquirePortLock, hlk]
        · intro hrf
          exact absurd hrf (by simp)

/-- Witness for C2's amended theorem: on a healthy store with no
existing record, acquire succeeds and stamps the record. -/
theorem acquirePortLock_amended_witness :
    alookup "9229" (acquirePortLock (fun _ => true) 10 100 false false "9229" []).2 =
      some (LockFile.record ⟨10, 100⟩) := by
  have h := acquirePortLock_amended (fun _ => true) 10 100 false false "9229" []
  exact h.2 rfl rfl (by decide) (by decide)

/-- C4 counterexample: a (pid, port) pair recorded by a prior
markSuppressed call in this instance (in-memory suppressed set) keeps
reporting suppressed even though the process is dead: the in-memory set
is consulted before any liveness check, so isSuppressed returns true,
not the claimed false. -/
theorem isSuppressed_true_for_dead_pid_inmemory :
    isProcessAliveM (fun _ => false) 7 = false ∧
    (isSuppressedFun (fun _ => false) 7 (some 9229) false false
      ⟨[suppKey 7 (some 9229)], []⟩).1 = true := by
  decide

/-- C4 (amended): when the owning process is dead, isSuppressed returns
false and garbage-collects the marker only on the persisted-marker path,
namely when the key is not in this instance's in-memory suppressed set
and a matching marker file is readable; when the suppression was
recorded by a prior markSuppressed call in this instance, isSuppressed
returns true from the in-memory set without any liveness check or
garbage collection. -/
theorem isSuppressed_amended (alive : Nat → Bool) (pid : Nat) (port : Option Nat)
    (t : Nat) (s : SupState) (hdead : isProcessAliveM alive pid = false) :
    (suppKey pid port ∉ s.suppressed →
      alookup (pid, port) s.markers = some (MarkerFile.data pid port t) →
      isSuppressedFun alive pid port false false s =
        (false, ⟨s.suppressed.erase (suppKey pid port), aerase (pid, port) s.markers⟩)) ∧
    (suppKey pid port ∈ s.suppressed →
      isSuppressedFun alive pid port false false s = (true, s)) := by
  constructor
  · intro hnotin hmk
    simp [isSuppressedFun, hnotin, hmk, hdead]
  · intro hin
    simp [isSuppressedFun, hin]

/-- Witness for C4's amended theorem: a dead pid with a matching marker
file and no in-memory entry yields not-suppressed and an emptied
store. -/
theorem isSuppressed_amended_witness :
    isSuppressedFun (fun _ => false) 7 (some 9229) false false
      ⟨[], [((7, some 9229), MarkerFile.data 7 (some 9229) 50)]⟩ =
      (false, ⟨[], []⟩) := by
  have h := (isSuppressed_amended (fun _ => false) 7 (some 9229) 50
    ⟨[], [((7, some 9229), MarkerFile.data 7 (some 9229) 50)]⟩ (by decide)).1
    (by decide) (by decide)
  rw [h]
  decide

/-- Concrete coordinator state for the C3 counterexample: one attached
session on 127.0.0.1:9229 whose recorded owning pid is 55 and whose
port claim belongs to instance 1. -/
def c3DeadState : CoordState :=
  { attachedSessions := ["127.0.0.1:9229"],
    sessionPidMap := [("127.0.0.1:9229", 55)],
    cooldown := [],
    attachedPids := [55],
    sessionIdByKey := [("127.0.0.1:9229", "s1")],
    inFlight := [],
    locks := [("9229", LockFile.record ⟨1, 5⟩)],
    sup := ⟨[], []⟩ }

/-- C3 counterexample: the owning process (pid 55) is dead, and the
claim says the cooldown path is cleared in that case; the handler
instead installs an 800 ms cooldown on the endpoint key (the code sets
the cooldown before distinguishing the two termination cases). -/
theorem termHandler_cooldown_not_cleared :
    isProcessAliveM (fun _ => false) 55 = false ∧
    alookup "127.0.0.1:9229"
      (termHandler (fun _ => false) 1 1000 false false
        "Attach Bun (127.0.0.1:9229)" c3DeadState).cooldown = some 1800 := by
  decide

/-- C3 (amended): on a host termination notification whose session name
embeds an endpoint key with a recorded owning pid, the port claim is
released and an 800 ms cooldown is set on the key in BOTH cases; the
two cases differ only in suppression: a dead owning pid installs no
suppression marker and leaves the suppression state untouched, while a
live owning pid installs the (pid, port) suppression marker. -/
theorem termHandler_amended (alive : Nat → Bool) (selfPid now : Nat)
    (supWriteFails : Bool) (name key : String) (p : Nat) (st : CoordState)
    (hkey : extractKey name = some key)
    (hpid : alookup key st.sessionPidMap = some p) (hp0 : p ≠ 0) :
    (termHandler alive selfPid now false supWriteFails name st).locks =
      releasePortLock selfPid false (portKey (keyPort key)) st.locks ∧
    alookup key (termHandler alive selfPid now false supWriteFails name st).cooldown =
      some (now + 800) ∧
    (isProcessAliveM alive p = false →
      (termHandler alive selfPid now false supWriteFails name st).sup = st.sup) ∧
    (isProcessAliveM alive p = true →
      (termHandler alive selfPid now false supWriteFails name st).sup =
        markSuppressedFun p (keyPort key) now supWriteFails st.sup) := by
  by_cases halive : isProcessAliveM alive p = true
  · refine ⟨?_, ?_, ?_, ?_⟩ <;>
      simp [termHandler, hkey, hpid, hp0, halive, alookup_aset_self]
  · have halive' : isProcessAliveM alive p = false := by
      revert halive; cases isProcessAliveM alive p <;> simp
    refine ⟨?_, ?_, ?_, ?_⟩ <;>
      simp [termHandler, hkey, hpid, hp0, halive', alookup_aset_self]

/-- Witness for C3's amended theorem at a live owning pid. -/
theorem termHandler_amended_witness :
    (termHandler (fun _ => true) 1 1000 false false
      "Attach Bun (127.0.0.1:9229)" c3DeadState).sup =
      markSuppressedFun 55 (keyPort "127.0.0.1:9229") 1000 false c3DeadState.sup := by
  have h := termHandler_amended (fun _ => true) 1 1000 false
    "Attach Bun (127.0.0.1:9229)" "127.0.0.1:9229" 55 c3DeadState
    (by decide) (by decide) (by decide)
  exact h.2.2.2 (by decide)

/-- C10: a debug session whose name does not match the attach-name
pattern leaves every part of the coordinator state unchanged in both the
session-start handler and the session-termination handler, and no stop
request is issued. -/
theorem handlers_frame_on_nonmatching_name (alive : Nat → Bool)
    (selfPid now : Nat) (relFails supWriteFails : Bool) (name sid : String)
    (st : CoordState) (hname : extractKey name = none) :
    termHandler alive selfPid now relFails supWriteFails name st = st ∧
    startHandler name sid st = (st, none) := by
  constructor
  · simp [termHandler, hname]
  · simp [startHandler, startHandlerMap, hname]

/-- Witness for C10 at a session name with no embedded endpoint key. -/
theorem handlers_frame_on_nonmatching_name_witness :
    termHandler (fun _ => true) 1 1000 false false "npm run dev" c3DeadState =
      c3DeadState ∧
    startHandler "npm run dev" "s9" c3DeadState = (c3DeadState, none) := by
  exact handlers_frame_on_nonmatching_name (fun _ => true) 1 1000 false false
    "npm run dev" "s9" c3DeadState (by decide)

theorem erase_sadd_not_mem {α : Type} [DecidableEq α] (x : α) (s : List α)
    (h : x ∉ s) : (sadd x s).erase x = s := by
  rw [sadd, if_neg h, List.erase_append_right _ h]
  simp

/-- Empty coordinator state holding one self-owned claim on port 9229,
used to witness the probe-failure path. -/
def c1State : CoordState :=
  { attachedSessions := [],
    sessionPidMap := [],
    cooldown := [],
    attachedPids := [],
    sessionIdByKey := [],
    inFlight := [],
    locks := [("9229", LockFile.record ⟨1, 5⟩)],
    sup := ⟨[], []⟩ }

/-- C1: the handshake check classifies success exactly when the response
data contains a protocol-upgrade acknowledgment (the marker "websocket"
or "101 Switching Protocols"); a connection error or a timeout is never
a success; and whenever the probe fails, the attempt releases the port
claim and returns the endpoint to Idle without requesting an attach (the
state is unchanged except that the self-owned claim is removed). -/
theorem checkBunDebugger_success_iff_upgradeAck (selfPid : Nat) (host : String)
    (port pid : Nat) (probe : ProbeEvent) (raceResult : Option Bool)
    (st : CoordState) (hfl : (host ++ ":" ++ toString port) ∉ st.inFlight) :
    (checkBunDebugger probe = true ↔
      ∃ r, probe = ProbeEvent.dataEvt r ∧
        (containsSub r "websocket" = true ∨
         containsSub r "101 Switching Protocols" = true)) ∧
    (checkBunDebugger probe = false →
      attachAttempt selfPid host port pid probe raceResult false st =
        (false, { st with
          locks := releasePortLock selfPid false (toString port) st.locks })) := by
  constructor
  · cases probe with
    | dataEvt r => simp [checkBunDebugger, upgradeAck, Bool.or_eq_true]
    | connError => simp [checkBunDebugger]
    | timeout => simp [checkBunDebugger]
  · intro hf
    simp only [attachAttempt, hf, Bool.false_eq_true, if_false, if_true]
    refine Prod.ext rfl ?_
    cases st
    simp_all [erase_sadd_not_mem]

/-- Witness for C1: a connection error releases the claim without an
attach request, and an upgrade acknowledgment classifies as success. -/
theorem checkBunDebugger_success_iff_upgradeAck_witness :
    attachAttempt 1 "127.0.0.1" 9229 55 ProbeEvent.connError none false c1State =
      (false, { c1State with
        locks := releasePortLock 1 false (toString 9229) c1State.locks }) ∧
    checkBunDebugger (ProbeEvent.dataEvt "HTTP/1.1 101 Switching Protocols") = true := by
  constructor
  · exact (checkBunDebugger_success_iff_upgradeAck 1 "127.0.0.1" 9229 55
      ProbeEvent.connError none c1State (by decide)).2 rfl
  · exact (checkBunDebugger_success_iff_upgradeAck 1 "" 0 0
      (ProbeEvent.dataEvt "HTTP/1.1 101 Switching Protocols") none c1State
      (by decide)).1.mpr ⟨_, rfl, Or.inr (by decide)⟩

theorem mem_keys_aset {α β : Type} [DecidableEq α] (k x : α) (v : β) :
    ∀ l : List (α × β), x ∈ (aset k v l).map Prod.fst →
      x = k ∨ x ∈ l.map Prod.fst := by
  intro l
  induction l with
  | nil => simp [aset]
  | cons h t ih =>
    obtain ⟨k₀, v₀⟩ := h
    by_cases hk : k₀ = k
    · subst hk
      simp [aset]
    · simp only [aset, if_neg hk, List.map_cons, List.mem_cons]
      rintro (rfl | hx)
      · right; simp
      · rcases ih hx with h1 | h1
        · left; exact h1
        · right; simp [h1]

theorem aset_keys_nodup {α β : Type} [DecidableEq α] (k : α) (v : β) :
    ∀ l : List (α × β), (l.map Prod.fst).Nodup → ((aset k v l).map Prod.fst).Nodup := by
  intro l
  induction l with
  | nil => simp [aset]
  | cons h t ih =>
    obtain ⟨k₀, v₀⟩ := h
    intro hnd
    simp only [List.map_cons, List.nodup_cons] at hnd
    by_cases hk : k₀ = k
    · subst hk
      simpa [aset] using hnd
    · simp only [aset, if_neg hk, List.map_cons, List.nodup_cons]
      refine ⟨?_, ih hnd.2⟩
      intro hmem
      rcases mem_keys_aset k k₀ v t hmem with h1 | h1
      · exact hk h1
      · exact hnd.1 h1

/-- C6: on a session-start event whose name embeds an endpoint key, if a
session with a different identifier is already tracked for the key, the
newer session is asked to stop and the whole state (hence the tracked
identifier) is unchanged; if no identifier is tracked, the new one
becomes the tracked identifier with no stop request; if the same
identifier is already tracked, nothing changes; and the tracking map
keeps at most one identifier per key. -/
theorem startHandler_dedup (name sid key : String) (st : CoordState)
    (hkey : extractKey name = some key)
    (hnodup : (st.sessionIdByKey.map Prod.fst).Nodup) :
    (∀ existing, alookup key st.sessionIdByKey = some existing → existing ≠ sid →
      startHandler name sid st = (st, some sid)) ∧
    (alookup key st.sessionIdByKey = none →
      (startHandler name sid st).2 = none ∧
      alookup key (startHandler name sid st).1.sessionIdByKey = some sid) ∧
    (alookup key st.sessionIdByKey = some sid →
      startHandler name sid st = (st, none)) ∧
    (((startHandler name sid st).1.sessionIdByKey.map Prod.fst).Nodup) := by
  refine ⟨?_, ?_, ?_, ?_⟩
  · intro existing hex hne
    simp [startHandler, startHandlerMap, hkey, hex, hne]
  · intro hnone
    constructor
    · simp [startHandler, startHandlerMap, hkey, hnone]
    · simp [startHandler, startHandlerMap, hkey, hnone, alookup_aset_self]
  · intro hsame
    simp [startHandler, startHandlerMap, hkey, hsame]
  · rcases hex : alookup key st.sessionIdByKey with _ | existing
    · simp only [startHandler, startHandlerMap, hkey, hex]
      exact aset_keys_nodup key sid _ hnodup
    · by_cases hne : existing ≠ sid
      · simpa [startHandler, startHandlerMap, hkey, hex, hne] using hnodup
      · push_neg at hne
        subst hne
        simpa [startHandler, startHandlerMap, hkey, hex] using hnodup

/-- Witness for C6: a duplicate start for a tracked key with a different
identifier stops the newer session and leaves the state unchanged. -/
theorem startHandler_dedup_witness :
    startHandler "Attach Bun (127.0.0.1:9229)" "s2" c3DeadState =
      (c3DeadState, some "s2") := by
  have h := startHandler_dedup "Attach Bun (127.0.0.1:9229)" "s2" "127.0.0.1:9229"
    c3DeadState (by decide) (by decide)
  exact h.1 "s1" (by decide) (by decide)

theorem schedStep_le (s : SchedState) (e : SchedEvent)
    (h : s.active ≤ maxConcurrentAttachments) :
    (schedStep s e).active ≤ maxConcurrentAttachments := by
  cases e with
  | cycle k =>
    simp only [schedStep, maxConcurrentAttachments] at *
    split_ifs with hc
    · exact h
    · show s.active + min k (2 - s.active) ≤ 2
      have := Nat.min_le_right k (2 - s.active)
      omega
  | finish =>
    simp only [schedStep] at *
    omega

theorem runSched_aux : ∀ (tr : List SchedEvent) (s : SchedState),
    s.active ≤ maxConcurrentAttachments →
    (tr.foldl schedStep s).active ≤ maxConcurrentAttachments := by
  intro tr
  induction tr with
  | nil => intro s h; exact h
  | cons e tr ih =>
    intro s h
    exact ih (schedStep s e) (schedStep_le s e h)

/-- C5: along every scheduler execution the number of in-flight attach
attempts never exceeds the cap of 2 (each cycle launches at most the
remaining capacity, and launches plus their increments are one
synchronous block in the source); a cycle launches exactly the first
min(capacity, eligible) candidates and the rest of the eligible list is
left intact for a later cycle — marking the launched keys in flight does
not disturb the membership status of any other key. -/
theorem scheduler_concurrency_bound :
    (∀ tr : List SchedEvent, (runSched tr).active ≤ maxConcurrentAttachments) ∧
    (∀ (active : Nat) (l : List BunCandidate),
      selectForLaunch active l ++ deferredRest active l = l ∧
      (selectForLaunch active l).length =
        min (maxConcurrentAttachments - active) l.length) ∧
    (∀ (keys s : List String) (k : String), k ∉ keys →
      (k ∈ markInFlightKeys keys s ↔ k ∈ s)) := by
  refine ⟨?_, ?_, ?_⟩
  · intro tr
    exact runSched_aux tr ⟨0⟩ (by simp [maxConcurrentAttachments])
  · intro active l
    exact ⟨List.take_append_drop _ l, List.length_take _ _⟩
  · intro keys
    induction keys with
    | nil => intro s k _; simp [markInFlightKeys]
    | cons kk keys ih =>
      intro s k hk
      simp only [List.mem_cons, not_or] at hk
      have step : k ∈ sadd kk s ↔ k ∈ s := by
        unfold sadd
        split_ifs with hin
        · exact Iff.rfl
        · simp [hk.1]
      calc k ∈ markInFlightKeys (kk :: keys) s
          ↔ k ∈ markInFlightKeys keys (sadd kk s) := Iff.rfl
        _ ↔ k ∈ sadd kk s := ih (sadd kk s) k hk.2
        _ ↔ k ∈ s := step

/-- Witness for C5 at a concrete trace and a key outside the launched
set. -/
theorem scheduler_concurrency_bound_witness :
    (runSched [SchedEvent.cycle 5, SchedEvent.cycle 3, SchedEvent.finish]).active ≤
      maxConcurrentAttachments ∧
    ("127.0.0.1:6499" ∈
        markInFlightKeys ["127.0.0.1:9229"] ["127.0.0.1:6499"] ↔
      "127.0.0.1:6499" ∈ ["127.0.0.1:6499"]) := by
  have h := scheduler_concurrency_bound
  exact ⟨h.1 _, h.2.2 ["127.0.0.1:9229"] ["127.0.0.1:6499"] "127.0.0.1:6499"
    (by decide)⟩

theorem foldLsofLine_empty_line (alive : Nat → Bool) (now : Nat)
    (srF suF : Bool) (tpids : List Nat) (pm : List (Nat × Nat)) (acc : ScanAcc) :
    foldLsofLine alive now srF suF tpids pm acc [] = acc := by
  have hpre : ("bun".data.isPrefixOf ([] : List Char)) = false := by decide
  simp [foldLsofLine, hpre]

/-- C7: on the fresh-scan path, scan is a total function of its
(failure-inclusive) inputs and returns the empty candidate set both when
zero terminal process ids are found (every lookup failed or yielded a
falsy pid) and when the socket-listing sub-operation failed (the exec
callback substitutes an empty output); no input makes it anything but a
plain, possibly-empty list. -/
theorem scan_empty_on_failures (alive : Nat → Bool) (now : Nat)
    (terminalLookups : List (Option Nat)) (lsofOut psOut : Option String)
    (srF suF : Bool) (g : ScanGlobals) (sup : SupState)
    (hfresh : g.isScanning = false) (htime : 200 ≤ now - g.lastScanTime) :
    ((terminalLookups.filterMap id).filter (fun p => decide (p ≠ 0)) = [] →
      (scanForBunDebugger alive now terminalLookups lsofOut psOut srF suF g sup).1 =
        []) ∧
    (lsofOut = none →
      (scanForBunDebugger alive now terminalLookups lsofOut psOut srF suF g sup).1 =
        []) := by
  have hcond : ¬ (g.isScanning = true ∨ now - g.lastScanTime < 200) := by
    rw [hfresh]
    simp
    omega
  constructor
  · intro hpids
    unfold scanForBunDebugger
    rw [if_neg hcond, hpids]
    simp
  · intro hnone
    subst hnone
    unfold scanForBunDebugger
    rw [if_neg hcond]
    by_cases hemp :
        (terminalLookups.filterMap id).filter (fun p => decide (p ≠ 0)) = []
    · rw [hemp]
      simp
    · rw [if_neg (fun hab => hemp (List.isEmpty_iff.mp hab))]
      have hstr : (Option.getD (none : Option String) "").data = [] := rfl
      rw [hstr]
      simp [splitCharList, foldLsofLine_empty_line]

/-- Witness for C7: a fresh scan with every terminal lookup failed or
falsy returns no candidates. -/
theorem scan_empty_on_failures_witness :
    (scanForBunDebugger (fun _ => true) 1000 [none, some 0] (some "x") none
      false false ⟨false, 0, []⟩ ⟨[], []⟩).1 = [] := by
  have h := scan_empty_on_failures (fun _ => true) 1000 [none, some 0] (some "x")
    none false false ⟨false, 0, []⟩ ⟨[], []⟩ rfl (by decide)
  exact h.1 (by decide)

/-- C8 (amended): for every starting pid and every pid-to-parent map,
the ownership walk terminates — its result is already stable at fuel
2|pm|+1, the fuel belongsToCurrentWindow runs with — it is cycle-safe
via the visited set (the visited list stays duplicate-free), and the
number of visited nodes is bounded by |pm|+1; the code enforces no fixed
200-node cap. -/
theorem walk_terminates_bounded (pm : List (Nat × Nat)) (tpids : List Nat)
    (pid : Nat) (fuel : Nat) (hfuel : 2 * pm.length + 1 ≤ fuel) :
    walkAux pm tpids fuel pid [] = walkAux pm tpids (2 * pm.length + 1) pid [] ∧
    (walkAux pm tpids fuel pid []).2.length ≤ pm.length + 1 ∧
    (walkAux pm tpids fuel pid []).2.Nodup := by
  have hkl : keysLeft pm [] = pm.length := keysLeft_nil_eq_length pm
  refine ⟨?_, ?_, ?_⟩
  · exact walkAux_stable pm tpids fuel (2 * pm.length + 1) pid [] (by omega) (by omega)
  · have h := walkAux_visited_le pm tpids fuel pid []
    simpa [hkl] using h
  · exact walkAux_visited_nodup pm tpids fuel pid [] List.nodup_nil

/-- Witness for C8's amended theorem on a one-edge parent map. -/
theorem walk_terminates_bounded_witness :
    (walkAux [(2, 3)] [] 3 2 []).2.length ≤ 2 := by
  have h := walk_terminates_bounded [(2, 3)] [] 2 3 (by decide)
  simpa using h.2.1

set_option maxRecDepth 10000 in
/-- C8 counterexample: a 205-edge parent chain starting at pid 2 makes
the walk visit 206 nodes before the chain is exhausted, so the claimed
fixed safety bound of 200 visited nodes does not exist in the code. -/
theorem walk_exceeds_200_nodes :
    200 < (walkAux ((List.range 205).map (fun i => (i + 2, i + 3))) []
      (2 * ((List.range 205).map (fun i => (i + 2, i + 3))).length + 1) 2 []).2.length := by
  decide
